import Mathlib

/-!
Verification development for the financial-metric extraction core of the
stock_analyze repository (src/main.py).  Strings are modelled as lists of
characters; Python's `None` becomes `Option`; machine integers are `Int`
(the parser's `int(float(...))` is modelled as exact truncating rational
evaluation, faithful on the representable range the spec quantifies over);
Python floats used only in derived ratios are modelled as `ℚ`.
Network fetches (`get_fin_data`) are modelled as explicit parameters.
-/

namespace StockAnalyze

abbrev Str := List Char

def str (s : String) : Str := s.data

/-- Python whitespace characters recognised by `str.strip()` / `float()`
(ASCII subset; the data handled by the program is ASCII-or-Hangul). -/
def isPySpace (c : Char) : Bool :=
  c = ' ' || c = '\t' || c = '\n' || c = '\r' || c = '\x0b' || c = '\x0c'

/-- ASCII decimal digit (the digits accepted by Python's float literal). -/
def isDigitC (c : Char) : Bool := decide (48 ≤ c.toNat ∧ c.toNat ≤ 57)

/-- Comma filter used for Python's `text.replace(',', '')`. -/
def notComma (c : Char) : Bool := c ≠ ','

def dropTrailingSpaces (l : Str) : Str := (l.reverse.dropWhile isPySpace).reverse

/-- Python `str.strip()`. -/
def pyStrip (l : Str) : Str := (dropTrailingSpaces l).dropWhile isPySpace

def digitVal (c : Char) : Nat := c.toNat - 48

def natFromDigits (l : Str) : Nat := l.foldl (fun a c => 10 * a + digitVal c) 0

def applySign (neg : Bool) (n : Int) : Int := if neg then -n else n

/-- Truncation toward zero of `mant * 10 ^ e` for `mant : Nat` (used to model
`int(float(text))`; for a non-negative mantissa truncation is `Nat` division). -/
def truncScaled (mant : Nat) (e : Int) : Int :=
  if 0 ≤ e then ((mant * 10 ^ e.toNat : Nat) : Int) else ((mant / 10 ^ (-e).toNat : Nat) : Int)

/-- Python `int(float(text))`: optional surrounding whitespace, optional sign,
digits with optional fractional part and optional exponent, evaluated exactly
and truncated toward zero; anything else (including `inf`/`nan`, on which
`int()` raises and the caller returns `None`) yields `none`. -/
def pyFloatInt (l : Str) : Option Int :=
  let t := pyStrip l
  let neg : Bool := t.head? = some '-'
  let t1 := if t.head? = some '-' ∨ t.head? = some '+' then t.drop 1 else t
  let d1 := t1.takeWhile isDigitC
  let r1 := t1.dropWhile isDigitC
  let d2 := if r1.head? = some '.' then (r1.drop 1).takeWhile isDigitC else []
  let r2 := if r1.head? = some '.' then (r1.drop 1).dropWhile isDigitC else r1
  if d1 ++ d2 = [] then none
  else if r2 = [] then
    some (applySign neg (truncScaled (natFromDigits (d1 ++ d2)) (0 - (d2.length : Int))))
  else if r2.head? = some 'e' ∨ r2.head? = some 'E' then
    let r3 := r2.drop 1
    let eneg : Bool := r3.head? = some '-'
    let r4 := if r3.head? = some '-' ∨ r3.head? = some '+' then r3.drop 1 else r3
    let ed := r4.takeWhile isDigitC
    let r5 := r4.dropWhile isDigitC
    if ed = [] ∨ r5 ≠ [] then none
    else
      some (applySign neg
        (truncScaled (natFromDigits (d1 ++ d2))
          (applySign eneg (natFromDigits ed : Int) - (d2.length : Int))))
  else none

/-- Embedding of `parse_dart_int` (src/main.py): empty/placeholder text is
`None`; a leading `△` marks negative; commas stripped; `(...)` marks negative;
the rest via `int(float(text))`, `None` on failure. -/
def parse_dart_int (value : Option Str) : Option Int :=
  let text0 := pyStrip (value.getD [])
  if text0 = [] ∨ text0 = str "-" ∨ text0 = str "--" ∨ text0 = str "N/A" ∨
      text0 = str "—" ∨ text0 = str "–" then
    none
  else
    let neg1 : Bool := text0.head? = some '△'
    let text1 := if text0.head? = some '△' then text0.drop 1 else text0
    let text2 := text1.filter notComma
    let paren : Bool := text2.head? = some '(' ∧ text2.getLast? = some ')'
    let neg2 : Bool := neg1 || paren
    let text3 := if paren then (text2.drop 1).dropLast else text2
    match pyFloatInt text3 with
    | some n => some (if neg2 then -n else n)
    | none => none

/-- Embedding of `calc_quarter`: cumulative minus prior cumulative, with the
prior-`None` fallback returning the later cumulative unchanged. -/
def calc_quarter (annual prev_cum : Option Int) : Option Int :=
  match annual with
  | none => none
  | some a =>
    match prev_cum with
    | none => some a
    | some p => some (a - p)

/-- Embedding of `calc_quarter_q4_safe`: `FY - 9M`, except that an
inconsistent `FY < 9M` pair returns the `FY` cumulative unchanged. -/
def calc_quarter_q4_safe (fy_cum q3_cum : Option Int) : Option Int :=
  match fy_cum with
  | none => none
  | some fy =>
    match q3_cum with
    | none => some fy
    | some q3 => if fy ≥ q3 then some (fy - q3) else some fy

/-- One line item of a financial-statement fetch (the fields of a DART
`fnlttSinglAcntAll` row that the core reads). -/
structure FinItem where
  sj_div : Option Str
  account_id : Option Str
  account_nm : Option Str
  thstrm_add_amount : Option Str
  thstrm_amount : Option Str
deriving DecidableEq

/-- Embedding of `pick_numeric_amount`: cumulative amount preferred,
period amount as fallback. -/
def pick_numeric_amount (item : FinItem) : Option Int :=
  match parse_dart_int item.thstrm_add_amount with
  | some v => some v
  | none => parse_dart_int item.thstrm_amount

def upperC (l : Str) : Str := l.map Char.toUpper

/-- Embedding of `normalize_account_id`: lower-case, then drop hyphens,
underscores and spaces. -/
def normalize_account_id (value : Option Str) : Str :=
  ((value.getD []).map Char.toLower).filter (fun c => !(c = '-' ∨ c = '_' ∨ c = ' '))

def isHangulSyl (c : Char) : Bool := decide (0xAC00 ≤ c.toNat ∧ c.toNat ≤ 0xD7A3)

def isKeptNameChar (c : Char) : Bool := c.isDigit || c.isAlpha || isHangulSyl c

/-- Embedding of `normalize_account_name`: keep `[0-9A-Za-z가-힣]`,
lower-case, strip. -/
def normalize_account_name (value : Option Str) : Str :=
  pyStrip (((value.getD []).filter isKeptNameChar).map Char.toLower)

/-- Boolean substring containment (Python `needle in haystack`). -/
def startsL : Str → Str → Bool
  | _, [] => true
  | [], _ :: _ => false
  | h :: hs, n :: ns => h = n && startsL hs ns

def hasSub : Str → Str → Bool
  | hay, needle =>
    startsL hay needle ||
      match hay with
      | [] => false
      | _ :: t => hasSub t needle

/-- Canonical income-statement core values (`out` dict of
`pick_is_core_from_rows`). -/
structure ISCore where
  rev : Option Int
  cogs : Option Int
  sga : Option Int
  op : Option Int
  ni : Option Int
deriving DecidableEq

def revenue_ids : List Str :=
  [str "ifrsfullrevenue", str "ifrsrevenue", str "ifrsfullrevenuefromcontractswithcustomers"]

def cogs_ids : List Str := [str "ifrsfullcostofsales", str "ifrscostofsales"]

def sga_ids : List Str :=
  [str "darttotalsellinggeneraladministrativeexpenses",
   str "ifrsfullsellinggeneralandadministrativeexpense"]

def op_ids : List Str :=
  [str "dartoperatingincomeloss", str "ifrsfulloperatingprofitloss",
   str "ifrsoperatingprofitloss", str "ifrsfullprofitlossfromoperatingactivities"]

def ni_ids : List Str :=
  [str "ifrsfullprofitloss", str "ifrsprofitloss",
   str "ifrsfullprofitlossattributabletoownersofparent"]

/-- Row filter `sj_div in {IS, CIS}` shared by both passes of
`pick_is_core_from_rows`. -/
def sjIsIS (item : FinItem) : Bool :=
  upperC (item.sj_div.getD []) = str "IS" || upperC (item.sj_div.getD []) = str "CIS"

/-- One iteration of the identifier pass (first loop of
`pick_is_core_from_rows`). -/
def core_step1 (s : ISCore) (item : FinItem) : ISCore :=
  if sjIsIS item then
    let aid := normalize_account_id item.account_id
    match pick_numeric_amount item with
    | none => s
    | some val =>
      { rev := if s.rev = none ∧ aid ∈ revenue_ids then some val else s.rev
        cogs := if s.cogs = none ∧ aid ∈ cogs_ids then some val else s.cogs
        sga := if s.sga = none ∧ aid ∈ sga_ids then some val else s.sga
        op := if s.op = none ∧ aid ∈ op_ids then some val else s.op
        ni := if s.ni = none ∧ aid ∈ ni_ids then some val else s.ni }
  else s

def rev_name_match (nm : Str) : Bool :=
  nm = str "매출액" || hasSub nm (str "수익매출액") || nm = str "수익" ||
    hasSub nm (str "영업수익") || hasSub nm (str "고객과의계약")

def cogs_name_match (nm : Str) : Bool :=
  hasSub nm (str "매출원가") ||
    (hasSub nm (str "원가") && !hasSub nm (str "판매") && !hasSub nm (str "관리"))

def sga_name_match (nm : Str) : Bool :=
  hasSub nm (str "판매비와관리비") || hasSub nm (str "판매비및관리비") || hasSub nm (str "판관비")

def op_name_match (nm : Str) : Bool :=
  hasSub nm (str "영업이익") || hasSub nm (str "영업손익") || hasSub nm (str "영업손실")

def ni_name_match (nm : Str) : Bool :=
  hasSub nm (str "당기순이익") || hasSub nm (str "당기순손익") ||
    hasSub nm (str "연결당기순이익") || hasSub nm (str "지배기업소유주")

/-- State of the name pass: the core values plus the separately collected
selling / admin expenses. -/
structure NamePassState where
  core : ISCore
  selling : Option Int
  admin : Option Int
deriving DecidableEq

/-- One iteration of the name pass (second loop of
`pick_is_core_from_rows`). -/
def core_step2 (s : NamePassState) (item : FinItem) : NamePassState :=
  if sjIsIS item then
    let nm := normalize_account_name item.account_nm
    match pick_numeric_amount item with
    | none => s
    | some val =>
      { core :=
        { rev := if s.core.rev = none ∧ rev_name_match nm then some val else s.core.rev
          cogs := if s.core.cogs = none ∧ cogs_name_match nm then some val else s.core.cogs
          sga := if s.core.sga = none ∧ sga_name_match nm then some val else s.core.sga
          op := if s.core.op = none ∧ op_name_match nm then some val else s.core.op
          ni := if s.core.ni = none ∧ ni_name_match nm then some val else s.core.ni }
        selling := if s.selling = none ∧ hasSub nm (str "판매비") then some val else s.selling
        admin := if s.admin = none ∧ hasSub nm (str "관리비") then some val else s.admin }
  else s

/-- Final SG&A fallback of `pick_is_core_from_rows`: when SG&A is still
unmatched and both a selling-expense and an admin-expense row were found,
their sum fills SG&A. -/
def sga_fallback (t : NamePassState) : ISCore :=
  match t.core.sga, t.selling, t.admin with
  | none, some a, some b => { t.core with sga := some (a + b) }
  | _, _, _ => t.core

/-- Embedding of `pick_is_core_from_rows`: identifier pass over the whole
list, then name pass, then the selling+admin fallback for SG&A. -/
def pick_is_core_from_rows (fin_list : List FinItem) : ISCore :=
  let out1 := fin_list.foldl core_step1 ⟨none, none, none, none, none⟩
  let s2 := fin_list.foldl core_step2 ⟨out1, none, none⟩
  sga_fallback s2

/-- Statement-type filter of `find_amount`: no filter when `sj_div` is
falsy, otherwise `{sj_div.upper()}`, widened with `CIS` when the filter
is `IS`. -/
def sjAllowed (sj_div : Str) (item_sj : Str) : Bool :=
  if sj_div = [] then true
  else item_sj = upperC sj_div || (upperC sj_div = str "IS" && item_sj = str "CIS")

/-- Keyword hit of `find_amount` on one row: some non-empty normalized
keyword is a substring of the space-stripped account name. -/
def kwHit (normalized_keywords : List Str) (account_nm : Str) : Bool :=
  normalized_keywords.any (fun kw => !(kw = []) && hasSub account_nm kw)

/-- Row loop of `find_amount`.  In the source the identifier test and the
keyword loop both return `pick_numeric_amount item` and otherwise fall
through to the next row, so one combined guard per row is equivalent. -/
def find_amount_go (target_ids : List Str) (normalized_keywords : List Str)
    (sj_div : Str) : List FinItem → Option Int
  | [] => none
  | item :: rest =>
    if sjAllowed sj_div (upperC (item.sj_div.getD [])) then
      let account_nm := (item.account_nm.getD []).filter (fun c => !(c = ' '))
      let account_id := normalize_account_id item.account_id
      if account_id ∈ target_ids ∨ kwHit normalized_keywords account_nm then
        match pick_numeric_amount item with
        | some v => some v
        | none => find_amount_go target_ids normalized_keywords sj_div rest
      else find_amount_go target_ids normalized_keywords sj_div rest
    else find_amount_go target_ids normalized_keywords sj_div rest

/-- Embedding of `find_amount`: keyword/identifier extraction over a row
list, with an optional statement-type filter (empty `sj_div` = no filter,
matching the source's falsy check). -/
def find_amount (fin_list : List FinItem) (keywords : List Str) (sj_div : Str)
    (account_ids : List Str) : Option Int :=
  find_amount_go (account_ids.map (fun x => normalize_account_id (some x)))
    (keywords.map (List.filter (fun c => !(c = ' ')))) sj_div fin_list

/-- Normalized output of aggregation for one filing snapshot; also the
shape of each per-quarter dictionary of `get_quarterly_metrics`. -/
structure MetricsRecord where
  rev : Option Int
  cogs : Option Int
  sga : Option Int
  op : Option Int
  ni : Option Int
  equity : Option Int
  capex : Option Int
  ocf : Option Int
  op_margin : Option ℚ
  roe : Option ℚ
deriving DecidableEq

def equity_keywords : List Str := [str "자본총계"]

def equity_account_ids : List Str := [str "ifrsfullequity", str "ifrsequity"]

def capex_keywords : List Str :=
  [str "유형자산의 취득", str "유형자산취득", str "유형자산의취득"]

def ocf_keywords : List Str :=
  [str "영업활동으로 인한 현금흐름", str "영업활동현금흐름",
   str "영업활동으로인한현금흐름", str "영업활동으로 인한현금흐름"]

def ocf_account_ids : List Str :=
  [str "ifrsfullcashflowsfromusedinoperatingactivities",
   str "ifrscashflowsfromusedinoperatingactivities"]

/-- Operating margin: `operating_income / revenue` guarded by non-null and
non-zero revenue (the `영업이익률` conditional of `parse_metrics` and of the
ratio loop of `get_quarterly_metrics`). -/
def margin_calc (r o : Option Int) : Option ℚ :=
  match r, o with
  | some rv, some ov => if rv ≠ 0 then some ((ov : ℚ) / (rv : ℚ)) else none
  | _, _ => none

/-- Single-period ROE: `net_income / total_equity` guarded by non-null and
non-zero equity (the `ROE` conditional of `parse_metrics`). -/
def roe_point_calc (e ni : Option Int) : Option ℚ :=
  match e, ni with
  | some ev, some nv => if ev ≠ 0 then some ((nv : ℚ) / (ev : ℚ)) else none
  | _, _ => none

/-- Annualized quarterly ROE: `net_income * 4 / average equity` guarded by
non-null, non-zero equity endpoints and a non-zero average (the ROE branch of
the ratio loop of `get_quarterly_metrics`). -/
def roe_quarter_calc (ni ec ep : Option Int) : Option ℚ :=
  match ni, ec, ep with
  | some n, some ecv, some epv =>
    if ecv ≠ 0 ∧ epv ≠ 0 then
      if ((ecv : ℚ) + (epv : ℚ)) / 2 ≠ 0 then
        some ((n : ℚ) * 4 / (((ecv : ℚ) + (epv : ℚ)) / 2))
      else none
    else none
  | _, _, _ => none

/-- Embedding of `parse_metrics`: the Metric Aggregator.  Derived ratios are
exact rationals standing for the source's floats. -/
def parse_metrics (fin_list : List FinItem) : MetricsRecord :=
  let is_core := pick_is_core_from_rows fin_list
  let equity := find_amount fin_list equity_keywords (str "BS") equity_account_ids
  let capex0 := find_amount fin_list capex_keywords (str "CF") []
  let capex : Option Int :=
    match capex0 with
    | some v => some |v|
    | none => none
  let ocf := find_amount fin_list ocf_keywords (str "CF") ocf_account_ids
  { rev := is_core.rev, cogs := is_core.cogs, sga := is_core.sga,
    op := is_core.op, ni := is_core.ni, equity := equity, capex := capex,
    ocf := ocf, op_margin := margin_calc is_core.rev is_core.op,
    roe := roe_point_calc equity is_core.ni }

/-- Embedding of `fetch_equity_end` with the fetched BS rows made explicit:
point-in-time equity from a balance-sheet snapshot. -/
def fetch_equity_end (bs_rows : List FinItem) : Option Int :=
  if bs_rows = [] then none else (parse_metrics bs_rows).equity

def fs_choices : List Str := [str "CFS", str "OFS"]

def sj_choices : List Str := [str "IS", str "CIS"]

/-- `REPRT_CODES` in source order: Q1, H1, Q3 (9-month), FY. -/
def reprt_choices : List Str := [str "11013", str "11012", str "11014", str "11011"]

/-- Acceptance test of the Reporting-Basis Detector for one combination:
non-empty rows whose aggregation has revenue, operating income or net
income non-null. -/
def combo_ok (fetch : Str → Str → Str → List FinItem) (c : Str × Str × Str) : Bool :=
  let rows := fetch c.1 c.2.1 c.2.2
  !rows.isEmpty &&
    ((parse_metrics rows).rev.isSome || (parse_metrics rows).op.isSome ||
      (parse_metrics rows).ni.isSome)

/-- Probe order of `detect_fs_sj_by_quarter_logic`: report period outermost,
then consolidation, then statement variant (the source's loop nesting). -/
def detect_combos : List (Str × Str × Str) :=
  reprt_choices.flatMap fun r => fs_choices.flatMap fun f => sj_choices.map fun s => (r, f, s)

def detect_go (fetch : Str → Str → Str → List FinItem) :
    List (Str × Str × Str) → Str × Str
  | [] => (str "CFS", str "IS")
  | c :: cs => if combo_ok fetch c then (c.2.1, c.2.2) else detect_go fetch cs

/-- Embedding of `detect_fs_sj_by_quarter_logic` with the network fetch
(`get_fin_data corp_code year · · ·`) abstracted as a function. -/
def detect_fs_sj_by_quarter_logic (fetch : Str → Str → Str → List FinItem) :
    Str × Str :=
  detect_go fetch detect_combos

/-- Per-key cumulative subtraction used to build the Q2/Q3/Q4 dictionaries
(`{k: calc_quarter(later.get(k), prior.get(k))}` over the eight base keys;
ratio keys are absent at this point, modelled as `none`). -/
def quarter_sub (later prior : MetricsRecord) : MetricsRecord :=
  { rev := calc_quarter later.rev prior.rev
    cogs := calc_quarter later.cogs prior.cogs
    sga := calc_quarter later.sga prior.sga
    op := calc_quarter later.op prior.op
    ni := calc_quarter later.ni prior.ni
    equity := calc_quarter later.equity prior.equity
    capex := calc_quarter later.capex prior.capex
    ocf := calc_quarter later.ocf prior.ocf
    op_margin := none, roe := none }

/-- The Q1 dictionary: direct copy of the eight base keys of the Q1
cumulative snapshot. -/
def base_of (m : MetricsRecord) : MetricsRecord :=
  { m with op_margin := none, roe := none }

/-- Ratio loop body of `get_quarterly_metrics`: operating margin from the
quarter's own revenue/operating income, annualized ROE from the quarter's
net income and the two equity endpoints. -/
def addRatios (q : MetricsRecord) (eq_prev : Option Int) : MetricsRecord :=
  { q with op_margin := margin_calc q.rev q.op,
           roe := roe_quarter_calc q.ni q.equity eq_prev }

/-- The four per-quarter records returned by `get_quarterly_metrics`. -/
structure QuarterSet where
  q1 : MetricsRecord
  q2 : MetricsRecord
  q3 : MetricsRecord
  q4 : MetricsRecord
deriving DecidableEq

/-- Embedding of `get_quarterly_metrics` with the four cumulative snapshot
records (`fetch_report_metrics` results for Q1, H1, 9M, FY under the one
detected basis) and the prior fiscal year's year-end equity
(`fetch_equity_end` result) made explicit parameters. -/
def get_quarterly_metrics (finQ1 finH1 finQ3 finFY : MetricsRecord)
    (prev_year_eq : Option Int) : QuarterSet :=
  let q1 := base_of finQ1
  let q2 := quarter_sub finH1 q1
  let q3 := quarter_sub finQ3 finH1
  let q4 := quarter_sub finFY finQ3
  let q4 :=
    { q4 with rev := calc_quarter_q4_safe finFY.rev finQ3.rev
              cogs := calc_quarter_q4_safe finFY.cogs finQ3.cogs
              sga := calc_quarter_q4_safe finFY.sga finQ3.sga
              op := calc_quarter_q4_safe finFY.op finQ3.op
              ni := calc_quarter_q4_safe finFY.ni finQ3.ni
              capex := calc_quarter_q4_safe finFY.capex finQ3.capex
              ocf := calc_quarter_q4_safe finFY.ocf finQ3.ocf }
  let q1 := { q1 with equity := finQ1.equity }
  let q2 := { q2 with equity := finH1.equity }
  let q3 := { q3 with equity := finQ3.equity }
  let q4 := { q4 with equity := finFY.equity }
  { q1 := addRatios q1 prev_year_eq
    q2 := addRatios q2 q1.equity
    q3 := addRatios q3 q2.equity
    q4 := addRatios q4 q3.equity }

/-- Sum of the four derived single-quarter values of one flow metric
(`none` unless all four are present). -/
def sum4 (a b c d : Option Int) : Option Int :=
  match a, b, c, d with
  | some x, some y, some z, some w => some (x + y + z + w)
  | _, _, _, _ => none

/-- First identifier-pass hit for one metric: the value of the first
IS/CIS row whose normalized `account_id` is in `ids` and whose amount
parses (the per-field content of the first loop of
`pick_is_core_from_rows`). -/
def scan_id (ids : List Str) : List FinItem → Option Int
  | [] => none
  | item :: rest =>
    if sjIsIS item then
      match pick_numeric_amount item with
      | none => scan_id ids rest
      | some val =>
        if normalize_account_id item.account_id ∈ ids then some val
        else scan_id ids rest
    else scan_id ids rest

/-- Decimal digit characters of `m`, most significant first. -/
def digitChars (m : Nat) : Str :=
  if m = 0 then ['0']
  else (Nat.digits 10 m).reverse.map fun d => Char.ofNat (48 + d)

/-- Insert a thousands separator after every third character of a
digit string given least-significant-first. -/
def insertCommasRev : Str → Str
  | a :: b :: c :: d :: rest => a :: b :: c :: ',' :: insertCommasRev (d :: rest)
  | l => l

/-- Thousands-separator-formatted rendering of an integer
(the inverse image the spec's Amount Parser round-trip quantifies over). -/
def formatThousands (n : Int) : Str :=
  (if n < 0 then ['-'] else []) ++ (insertCommasRev (digitChars n.natAbs).reverse).reverse

/-- Fetch in which only the standalone (`OFS`) / comprehensive-income
(`CIS`) combination yields a row with usable revenue, for the detector
scenario of the spec. -/
def only_ofs_cis_fetch (_r f s : Str) : List FinItem :=
  if f = str "OFS" ∧ s = str "CIS" then
    [⟨some (str "CIS"), some (str "ifrsfullrevenue"), none, some (str "100"), none⟩]
  else []

example : parse_dart_int (some (str "(1,234)")) = some (-1234) := by decide
example : parse_dart_int (some (str "△500")) = some (-500) := by decide
example : parse_dart_int (some (str "")) = none := by decide
example : parse_dart_int (some (str "△-5")) = some 5 := by decide
example : parse_dart_int (some (str "△(5)")) = some (-5) := by decide
example : parse_dart_int (some (str "1.5e1")) = some 15 := by decide
example : calc_quarter (some 500) none = some 500 := by decide
example : calc_quarter_q4_safe (some 100) (some 150) = some 100 := by decide

example :
    (parse_metrics
      [⟨some (str "IS"), some (str "ifrsfullrevenue"), none, some (str "1,000,000"), none⟩,
       ⟨some (str "IS"), some (str "ifrsfulloperatingprofitloss"), none, some (str "100,000"), none⟩]).rev
      = some 1000000 := by decide

example :
    (parse_metrics
      [⟨some (str "CF"), none, some (str "유형자산의 취득"), none, some (str "-50,000")⟩]).capex
      = some 50000 := by decide

lemma sum4_decomp (oa ob oc od : Option Int) (a b c d : Int)
    (ha : oa = some a) (hb : ob = some b) (hc : oc = some c) (hd : od = some d)
    (h : c ≤ d) :
    sum4 oa (calc_quarter ob oa) (calc_quarter oc ob) (calc_quarter_q4_safe od oc) =
      some d := by
  subst ha; subst hb; subst hc; subst hd
  simp only [calc_quarter, calc_quarter_q4_safe, ge_iff_le, if_pos h, sum4]
  congr 1
  omega

/-- C1: for every fiscal year whose four cumulative snapshots are non-null for
a flow metric and whose FY cumulative is at least the 9M cumulative, the four
single-quarter values produced by the Quarter Decomposer sum exactly to the FY
cumulative, for each of the seven flow metrics. -/
theorem C1_quarter_decomposition_sum (A B C D : MetricsRecord) (e : Option Int)
    (Q : QuarterSet) (hQ : Q = get_quarterly_metrics A B C D e) :
    (∀ a b c d : Int, A.rev = some a → B.rev = some b → C.rev = some c →
      D.rev = some d → c ≤ d → sum4 Q.q1.rev Q.q2.rev Q.q3.rev Q.q4.rev = some d) ∧
    (∀ a b c d : Int, A.cogs = some a → B.cogs = some b → C.cogs = some c →
      D.cogs = some d → c ≤ d → sum4 Q.q1.cogs Q.q2.cogs Q.q3.cogs Q.q4.cogs = some d) ∧
    (∀ a b c d : Int, A.sga = some a → B.sga = some b → C.sga = some c →
      D.sga = some d → c ≤ d → sum4 Q.q1.sga Q.q2.sga Q.q3.sga Q.q4.sga = some d) ∧
    (∀ a b c d : Int, A.op = some a → B.op = some b → C.op = some c →
      D.op = some d → c ≤ d → sum4 Q.q1.op Q.q2.op Q.q3.op Q.q4.op = some d) ∧
    (∀ a b c d : Int, A.ni = some a → B.ni = some b → C.ni = some c →
      D.ni = some d → c ≤ d → sum4 Q.q1.ni Q.q2.ni Q.q3.ni Q.q4.ni = some d) ∧
    (∀ a b c d : Int, A.capex = some a → B.capex = some b → C.capex = some c →
      D.capex = some d → c ≤ d → sum4 Q.q1.capex Q.q2.capex Q.q3.capex Q.q4.capex = some d) ∧
    (∀ a b c d : Int, A.ocf = some a → B.ocf = some b → C.ocf = some c →
      D.ocf = some d → c ≤ d → sum4 Q.q1.ocf Q.q2.ocf Q.q3.ocf Q.q4.ocf = some d) := by
  subst hQ
  refine ⟨?_, ?_, ?_, ?_, ?_, ?_, ?_⟩ <;>
    exact fun a b c d ha hb hc hd h => sum4_decomp _ _ _ _ a b c d ha hb hc hd h

/-- Witness for C1 at a concrete year: revenue cumulatives 10/40/70/100
decompose into quarters summing back to 100. -/
theorem C1_witness :
    sum4 (get_quarterly_metrics
        ⟨some 10, none, none, none, none, none, none, none, none, none⟩
        ⟨some 40, none, none, none, none, none, none, none, none, none⟩
        ⟨some 70, none, none, none, none, none, none, none, none, none⟩
        ⟨some 100, none, none, none, none, none, none, none, none, none⟩ none).q1.rev
      ((get_quarterly_metrics
        ⟨some 10, none, none, none, none, none, none, none, none, none⟩
        ⟨some 40, none, none, none, none, none, none, none, none, none⟩
        ⟨some 70, none, none, none, none, none, none, none, none, none⟩
        ⟨some 100, none, none, none, none, none, none, none, none, none⟩ none).q2.rev)
      ((get_quarterly_metrics
        ⟨some 10, none, none, none, none, none, none, none, none, none⟩
        ⟨some 40, none, none, none, none, none, none, none, none, none⟩
        ⟨some 70, none, none, none, none, none, none, none, none, none⟩
        ⟨some 100, none, none, none, none, none, none, none, none, none⟩ none).q3.rev)
      ((get_quarterly_metrics
        ⟨some 10, none, none, none, none, none, none, none, none, none⟩
        ⟨some 40, none, none, none, none, none, none, none, none, none⟩
        ⟨some 70, none, none, none, none, none, none, none, none, none⟩
        ⟨some 100, none, none, none, none, none, none, none, none, none⟩ none).q4.rev)
      = some 100 :=
  (C1_quarter_decomposition_sum
    ⟨some 10, none, none, none, none, none, none, none, none, none⟩
    ⟨some 40, none, none, none, none, none, none, none, none, none⟩
    ⟨some 70, none, none, none, none, none, none, none, none, none⟩
    ⟨some 100, none, none, none, none, none, none, none, none, none⟩
    none _ rfl).1 10 40 70 100 rfl rfl rfl rfl (by decide)

/-- C3: for non-null FY and 9M cumulatives, Q4 equals `FY - 9M` when
`FY ≥ 9M` and the unchanged FY cumulative otherwise; the decomposer wires
every flow field of Q4 through this guard; and the spec's concrete
inconsistent pair 100/150 yields 100. -/
theorem C3_q4_guard :
    (∀ fy q3 : Int, calc_quarter_q4_safe (some fy) (some q3) =
      if q3 ≤ fy then some (fy - q3) else some fy) ∧
    (∀ A B C D : MetricsRecord, ∀ e : Option Int,
      (get_quarterly_metrics A B C D e).q4.rev = calc_quarter_q4_safe D.rev C.rev ∧
      (get_quarterly_metrics A B C D e).q4.cogs = calc_quarter_q4_safe D.cogs C.cogs ∧
      (get_quarterly_metrics A B C D e).q4.sga = calc_quarter_q4_safe D.sga C.sga ∧
      (get_quarterly_metrics A B C D e).q4.op = calc_quarter_q4_safe D.op C.op ∧
      (get_quarterly_metrics A B C D e).q4.ni = calc_quarter_q4_safe D.ni C.ni ∧
      (get_quarterly_metrics A B C D e).q4.capex = calc_quarter_q4_safe D.capex C.capex ∧
      (get_quarterly_metrics A B C D e).q4.ocf = calc_quarter_q4_safe D.ocf C.ocf) ∧
    calc_quarter_q4_safe (some 100) (some 150) = some 100 := by
  refine ⟨fun fy q3 => rfl, fun A B C D e => ⟨rfl, rfl, rfl, rfl, rfl, rfl, rfl⟩, by decide⟩

/-- C4: the single-quarter subtraction is null when the later cumulative is
null, substitutes the later cumulative when only the prior is null, and is
the difference when both are present; the decomposer uses it for Q2, and the
spec's scenario (Q1 revenue null, H1 revenue 500) yields Q2 revenue 500. -/
theorem C4_calc_quarter_nulls :
    (∀ p : Option Int, calc_quarter none p = none) ∧
    (∀ a : Int, calc_quarter (some a) none = some a) ∧
    (∀ a p : Int, calc_quarter (some a) (some p) = some (a - p)) ∧
    (∀ A B C D : MetricsRecord, ∀ e : Option Int,
      (get_quarterly_metrics A B C D e).q2.rev = calc_quarter B.rev A.rev) ∧
    (get_quarterly_metrics
        ⟨none, none, none, none, none, none, none, none, none, none⟩
        ⟨some 500, none, none, none, none, none, none, none, none, none⟩
        ⟨none, none, none, none, none, none, none, none, none, none⟩
        ⟨none, none, none, none, none, none, none, none, none, none⟩ none).q2.rev
      = some 500 :=
  ⟨fun _ => rfl, fun _ => rfl, fun _ _ => rfl, fun _ _ _ _ _ => rfl, by decide⟩

/-- C9: the aggregated CAPEX metric is the absolute value of the amount
matched on the cash-flow statement (hence always non-negative), null when no
row matches, and the spec's scenario (matched CF amount "-50,000") yields
50000. -/
theorem C9_capex_abs :
    (∀ (l : List FinItem) (v : Int),
      find_amount l capex_keywords (str "CF") [] = some v →
      (parse_metrics l).capex = some |v|) ∧
    (∀ l : List FinItem,
      find_amount l capex_keywords (str "CF") [] = none →
      (parse_metrics l).capex = none) ∧
    (∀ (l : List FinItem) (v : Int), (parse_metrics l).capex = some v → 0 ≤ v) ∧
    (parse_metrics
        [⟨some (str "CF"), none, some (str "유형자산의 취득"), none, some (str "-50,000")⟩]).capex
      = some 50000 := by
  have habs : ∀ (l : List FinItem) (v : Int),
      find_amount l capex_keywords (str "CF") [] = some v →
      (parse_metrics l).capex = some |v| := by
    intro l v h
    simp only [parse_metrics, h]
  refine ⟨habs, ?_, ?_, by decide⟩
  · intro l h
    simp only [parse_metrics, h]
  · intro l v h
    rcases h0 : find_amount l capex_keywords (str "CF") [] with _ | w
    · simp only [parse_metrics, h0] at h
      exact Option.noConfusion h
    · rw [habs l w h0] at h
      cases h
      exact abs_nonneg w

/-- Witness for C9: the scenario row's matched amount is -50000 and the
aggregated CAPEX is its absolute value. -/
theorem C9_witness :
    (parse_metrics
        [⟨some (str "CF"), none, some (str "유형자산의 취득"), none, some (str "-50,000")⟩]).capex
      = some |(-50000 : Int)| :=
  C9_capex_abs.1
    [⟨some (str "CF"), none, some (str "유형자산의 취득"), none, some (str "-50,000")⟩]
    (-50000) (by decide)

lemma margin_calc_null (r o : Option Int) (h : r = none ∨ r = some 0 ∨ o = none) :
    margin_calc r o = none := by
  rcases h with h | h | h
  · cases o <;> simp [margin_calc, h]
  · cases o <;> simp [margin_calc, h]
  · cases r <;> simp [margin_calc, h]

lemma roe_point_calc_null (e ni : Option Int)
    (h : ni = none ∨ e = none ∨ e = some 0) : roe_point_calc e ni = none := by
  rcases h with h | h | h
  · cases e <;> simp [roe_point_calc, h]
  · cases ni <;> simp [roe_point_calc, h]
  · cases ni <;> simp [roe_point_calc, h]

lemma roe_quarter_calc_null (ni ec ep : Option Int)
    (h : ni = none ∨ ec = none ∨ ec = some 0 ∨ ep = none ∨ ep = some 0) :
    roe_quarter_calc ni ec ep = none := by
  rcases h with h | h | h | h | h
  · cases ec <;> cases ep <;> simp [roe_quarter_calc, h]
  · cases ni <;> cases ep <;> simp [roe_quarter_calc, h]
  · cases ni <;> cases ep <;> simp [roe_quarter_calc, h]
  · cases ni <;> cases ec <;> simp [roe_quarter_calc, h]
  · cases ni <;> cases ec <;> simp [roe_quarter_calc, h]

lemma roe_quarter_calc_some (ni ec ep : Option Int) (n ecv epv : Int)
    (hni : ni = some n) (hec : ec = some ecv) (hep : ep = some epv)
    (h1 : ecv ≠ 0) (h2 : epv ≠ 0) (h3 : ecv + epv ≠ 0) :
    roe_quarter_calc ni ec ep =
      some ((n : ℚ) * 4 / (((ecv : ℚ) + (epv : ℚ)) / 2)) := by
  subst hni; subst hec; subst hep
  have h4 : ((ecv : ℚ) + (epv : ℚ)) ≠ 0 := by
    intro hc
    apply h3
    exact_mod_cast hc
  have havg : ((ecv : ℚ) + (epv : ℚ)) / 2 ≠ 0 := div_ne_zero h4 two_ne_zero
  simp [roe_quarter_calc, h1, h2, havg]

/-- C6: every derived ratio of the aggregator and of each quarterly record is
null whenever its numerator is null or its denominator is null or zero
(operating margin null for null-or-zero revenue; annual ROE null for
null-or-zero equity; quarterly ROE null when either equity endpoint is null
or zero). -/
theorem C6_ratio_null_invariant :
    (∀ l : List FinItem,
      ((parse_metrics l).rev = none ∨ (parse_metrics l).rev = some 0 ∨
        (parse_metrics l).op = none) → (parse_metrics l).op_margin = none) ∧
    (∀ l : List FinItem,
      ((parse_metrics l).ni = none ∨ (parse_metrics l).equity = none ∨
        (parse_metrics l).equity = some 0) → (parse_metrics l).roe = none) ∧
    (∀ (A B C D : MetricsRecord) (e : Option Int),
      ∀ q ∈ [(get_quarterly_metrics A B C D e).q1, (get_quarterly_metrics A B C D e).q2,
             (get_quarterly_metrics A B C D e).q3, (get_quarterly_metrics A B C D e).q4],
        ((q.rev = none ∨ q.rev = some 0 ∨ q.op = none) → q.op_margin = none) ∧
        ((q.ni = none ∨ q.equity = none ∨ q.equity = some 0) → q.roe = none)) ∧
    (∀ (A B C D : MetricsRecord) (e : Option Int),
      ((e = none ∨ e = some 0) → (get_quarterly_metrics A B C D e).q1.roe = none) ∧
      ((A.equity = none ∨ A.equity = some 0) →
        (get_quarterly_metrics A B C D e).q2.roe = none) ∧
      ((B.equity = none ∨ B.equity = some 0) →
        (get_quarterly_metrics A B C D e).q3.roe = none) ∧
      ((C.equity = none ∨ C.equity = some 0) →
        (get_quarterly_metrics A B C D e).q4.roe = none)) := by
  refine ⟨?_, ?_, ?_, ?_⟩
  · exact fun l h => margin_calc_null _ _ h
  · exact fun l h => roe_point_calc_null _ _ h
  · intro A B C D e q hq
    simp only [List.mem_cons, List.mem_singleton, List.not_mem_nil, or_false] at hq
    rcases hq with rfl | rfl | rfl | rfl
    · exact ⟨fun h => margin_calc_null _ _ h,
        fun h => roe_quarter_calc_null _ _ _ (by tauto)⟩
    · exact ⟨fun h => margin_calc_null _ _ h,
        fun h => roe_quarter_calc_null _ _ _ (by tauto)⟩
    · exact ⟨fun h => margin_calc_null _ _ h,
        fun h => roe_quarter_calc_null _ _ _ (by tauto)⟩
    · exact ⟨fun h => margin_calc_null _ _ h,
        fun h => roe_quarter_calc_null _ _ _ (by tauto)⟩
  · intro A B C D e
    exact ⟨fun h => roe_quarter_calc_null _ _ _ (by tauto),
      fun h => roe_quarter_calc_null _ _ _ (by tauto),
      fun h => roe_quarter_calc_null _ _ _ (by tauto),
      fun h => roe_quarter_calc_null _ _ _ (by tauto)⟩

/-- Witness for C6: an empty row set gives a null operating margin, and a
quarter set built from all-null snapshots has a null Q1 ROE. -/
theorem C6_witness :
    (parse_metrics []).op_margin = none ∧
    (get_quarterly_metrics
        ⟨none, none, none, none, none, none, none, none, none, none⟩
        ⟨none, none, none, none, none, none, none, none, none, none⟩
        ⟨none, none, none, none, none, none, none, none, none, none⟩
        ⟨none, none, none, none, none, none, none, none, none, none⟩ none).q1.roe = none :=
  ⟨C6_ratio_null_invariant.1 [] (Or.inl (by decide)),
    (C6_ratio_null_invariant.2.2.2
      ⟨none, none, none, none, none, none, none, none, none, none⟩
      ⟨none, none, none, none, none, none, none, none, none, none⟩
      ⟨none, none, none, none, none, none, none, none, none, none⟩
      ⟨none, none, none, none, none, none, none, none, none, none⟩ none).1
      (Or.inl rfl)⟩

/-- C8: each quarter's ROE is the annualized `net_income * 4` over the average
of the quarter-start and quarter-end equity, where Q1 starts from the prior
fiscal year's year-end equity and each later quarter starts from the previous
quarter's end equity; it is null when either endpoint is null or zero. -/
theorem C8_quarterly_roe (A B C D : MetricsRecord) (e : Option Int) :
    (∀ n ecv epv : Int, A.ni = some n → A.equity = some ecv → e = some epv →
      ecv ≠ 0 → epv ≠ 0 → ecv + epv ≠ 0 →
      (get_quarterly_metrics A B C D e).q1.roe =
        some ((n : ℚ) * 4 / (((ecv : ℚ) + (epv : ℚ)) / 2))) ∧
    (∀ n ecv epv : Int,
      (get_quarterly_metrics A B C D e).q2.ni = some n → B.equity = some ecv →
      A.equity = some epv → ecv ≠ 0 → epv ≠ 0 → ecv + epv ≠ 0 →
      (get_quarterly_metrics A B C D e).q2.roe =
        some ((n : ℚ) * 4 / (((ecv : ℚ) + (epv : ℚ)) / 2))) ∧
    (∀ n ecv epv : Int,
      (get_quarterly_metrics A B C D e).q3.ni = some n → C.equity = some ecv →
      B.equity = some epv → ecv ≠ 0 → epv ≠ 0 → ecv + epv ≠ 0 →
      (get_quarterly_metrics A B C D e).q3.roe =
        some ((n : ℚ) * 4 / (((ecv : ℚ) + (epv : ℚ)) / 2))) ∧
    (∀ n ecv epv : Int,
      (get_quarterly_metrics A B C D e).q4.ni = some n → D.equity = some ecv →
      C.equity = some epv → ecv ≠ 0 → epv ≠ 0 → ecv + epv ≠ 0 →
      (get_quarterly_metrics A B C D e).q4.roe =
        some ((n : ℚ) * 4 / (((ecv : ℚ) + (epv : ℚ)) / 2))) ∧
    (∀ n ecv epv : Int, A.ni = some n → A.equity = some ecv → e = some epv →
      ecv + epv = 0 → (get_quarterly_metrics A B C D e).q1.roe = none) := by
  refine ⟨?_, ?_, ?_, ?_, ?_⟩
  · exact fun n ecv epv hni hec hep h1 h2 h3 =>
      roe_quarter_calc_some _ _ _ n ecv epv hni hec hep h1 h2 h3
  · exact fun n ecv epv hni hec hep h1 h2 h3 =>
      roe_quarter_calc_some _ _ _ n ecv epv hni hec hep h1 h2 h3
  · exact fun n ecv epv hni hec hep h1 h2 h3 =>
      roe_quarter_calc_some _ _ _ n ecv epv hni hec hep h1 h2 h3
  · exact fun n ecv epv hni hec hep h1 h2 h3 =>
      roe_quarter_calc_some _ _ _ n ecv epv hni hec hep h1 h2 h3
  · intro n ecv epv hni hec hep h0
    have h4 : ((ecv : ℚ) + (epv : ℚ)) = 0 := by exact_mod_cast h0
    by_cases h1 : ecv = 0
    · exact roe_quarter_calc_null _ _ _
        (Or.inr (Or.inr (Or.inl (show A.equity = some 0 by rw [hec, h1]))))
    · by_cases h2 : epv = 0
      · exact roe_quarter_calc_null _ _ _
          (Or.inr (Or.inr (Or.inr (Or.inr (show e = some 0 by rw [hep, h2])))))
      · show roe_quarter_calc A.ni A.equity e = none
        rw [hni, hec, hep]
        simp [roe_quarter_calc, h1, h2, h4]

/-- Witness for C8: net income 8 with equity endpoints 30 (prior year-end)
and 10 (Q1 end) gives the annualized Q1 ROE `8*4 / ((10+30)/2)`. -/
theorem C8_witness :
    (get_quarterly_metrics
        ⟨none, none, none, none, some 8, some 10, none, none, none, none⟩
        ⟨none, none, none, none, none, none, none, none, none, none⟩
        ⟨none, none, none, none, none, none, none, none, none, none⟩
        ⟨none, none, none, none, none, none, none, none, none, none⟩ (some 30)).q1.roe =
      some ((8 : ℚ) * 4 / ((((10 : Int) : ℚ) + ((30 : Int) : ℚ)) / 2)) :=
  (C8_quarterly_roe
    ⟨none, none, none, none, some 8, some 10, none, none, none, none⟩
    ⟨none, none, none, none, none, none, none, none, none, none⟩
    ⟨none, none, none, none, none, none, none, none, none, none⟩
    ⟨none, none, none, none, none, none, none, none, none, none⟩ (some 30)).1
    8 10 30 rfl rfl rfl (by decide) (by decide) (by decide)

lemma detect_go_of_all_false (fetch : Str → Str → Str → List FinItem) :
    ∀ l : List (Str × Str × Str), (∀ c ∈ l, combo_ok fetch c = false) →
      detect_go fetch l = (str "CFS", str "IS") := by
  intro l
  induction l with
  | nil => intro _; rfl
  | cons c cs ih =>
    intro h
    have hc := h c (List.mem_cons_self c cs)
    simp only [detect_go, hc]
    exact ih fun c' hc' => h c' (List.mem_cons_of_mem c hc')

lemma detect_go_first_hit (fetch : Str → Str → Str → List FinItem) :
    ∀ (l1 : List (Str × Str × Str)) (c : Str × Str × Str) (l2 : List (Str × Str × Str)),
      (∀ c' ∈ l1, combo_ok fetch c' = false) → combo_ok fetch c = true →
      detect_go fetch (l1 ++ c :: l2) = (c.2.1, c.2.2) := by
  intro l1
  induction l1 with
  | nil =>
    intro c l2 _ hc
    simp only [List.nil_append, detect_go, hc]
    rfl
  | cons a rest ih =>
    intro c l2 h hc
    have ha := h a (List.mem_cons_self a rest)
    simp only [List.cons_append, detect_go, ha]
    exact ih c l2 (fun c' hc' => h c' (List.mem_cons_of_mem a hc')) hc

/-- C7: the Reporting-Basis Detector probes the 16 combinations with report
period outermost (Q1, H1, 9M, FY), then consolidation (CFS before OFS), then
statement variant (IS before CIS); it returns the consolidation/variant pair
of the first accepted combination, falls back to (CFS, IS) when none is
accepted, and in the spec's scenario where only the OFS/CIS combination has
usable revenue it returns exactly (OFS, CIS), not the default. -/
theorem C7_basis_detector :
    detect_combos =
      [(str "11013", str "CFS", str "IS"), (str "11013", str "CFS", str "CIS"),
       (str "11013", str "OFS", str "IS"), (str "11013", str "OFS", str "CIS"),
       (str "11012", str "CFS", str "IS"), (str "11012", str "CFS", str "CIS"),
       (str "11012", str "OFS", str "IS"), (str "11012", str "OFS", str "CIS"),
       (str "11014", str "CFS", str "IS"), (str "11014", str "CFS", str "CIS"),
       (str "11014", str "OFS", str "IS"), (str "11014", str "OFS", str "CIS"),
       (str "11011", str "CFS", str "IS"), (str "11011", str "CFS", str "CIS"),
       (str "11011", str "OFS", str "IS"), (str "11011", str "OFS", str "CIS")] ∧
    (∀ fetch : Str → Str → Str → List FinItem,
      (∀ c ∈ detect_combos, combo_ok fetch c = false) →
      detect_fs_sj_by_quarter_logic fetch = (str "CFS", str "IS")) ∧
    (∀ (fetch : Str → Str → Str → List FinItem) (l1 : List (Str × Str × Str))
        (c : Str × Str × Str) (l2 : List (Str × Str × Str)),
      detect_combos = l1 ++ c :: l2 →
      (∀ c' ∈ l1, combo_ok fetch c' = false) → combo_ok fetch c = true →
      detect_fs_sj_by_quarter_logic fetch = (c.2.1, c.2.2)) ∧
    (detect_fs_sj_by_quarter_logic only_ofs_cis_fetch = (str "OFS", str "CIS") ∧
      (str "OFS", str "CIS") ≠ (str "CFS", str "IS")) := by
  refine ⟨by decide, ?_, ?_, by decide, by decide⟩
  · exact fun fetch h => detect_go_of_all_false fetch detect_combos h
  · intro fetch l1 c l2 hsplit h hc
    unfold detect_fs_sj_by_quarter_logic
    rw [hsplit]
    exact detect_go_first_hit fetch l1 c l2 h hc

/-- Witness for C7: in the scenario fetch the first three combinations are
rejected and the fourth (Q1, OFS, CIS) is accepted, so the detector returns
(OFS, CIS). -/
theorem C7_witness :
    detect_fs_sj_by_quarter_logic only_ofs_cis_fetch = (str "OFS", str "CIS") :=
  C7_basis_detector.2.2.1 only_ofs_cis_fetch
    [(str "11013", str "CFS", str "IS"), (str "11013", str "CFS", str "CIS"),
     (str "11013", str "OFS", str "IS")]
    (str "11013", str "OFS", str "CIS")
    [(str "11012", str "CFS", str "IS"), (str "11012", str "CFS", str "CIS"),
     (str "11012", str "OFS", str "IS"), (str "11012", str "OFS", str "CIS"),
     (str "11014", str "CFS", str "IS"), (str "11014", str "CFS", str "CIS"),
     (str "11014", str "OFS", str "IS"), (str "11014", str "OFS", str "CIS"),
     (str "11011", str "CFS", str "IS"), (str "11011", str "CFS", str "CIS"),
     (str "11011", str "OFS", str "IS"), (str "11011", str "OFS", str "CIS")]
    (by decide) (by decide) (by decide)

/-- First-defined-wins combination on nullable values (how both matcher
passes treat an already-filled metric slot). -/
def opOr (a b : Option Int) : Option Int :=
  match a with
  | some v => some v
  | none => b

lemma opOr_none (a : Option Int) : opOr a none = a := by cases a <;> rfl

lemma core_step1_rev (s : ISCore) (x : FinItem) :
    (core_step1 s x).rev =
      if sjIsIS x then
        match pick_numeric_amount x with
        | none => s.rev
        | some val =>
          if s.rev = none ∧ normalize_account_id x.account_id ∈ revenue_ids then some val
          else s.rev
      else s.rev := by
  by_cases h : sjIsIS x <;> cases hp : pick_numeric_amount x <;> simp [core_step1, h, hp]

lemma core_step1_cogs (s : ISCore) (x : FinItem) :
    (core_step1 s x).cogs =
      if sjIsIS x then
        match pick_numeric_amount x with
        | none => s.cogs
        | some val =>
          if s.cogs = none ∧ normalize_account_id x.account_id ∈ cogs_ids then some val
          else s.cogs
      else s.cogs := by
  by_cases h : sjIsIS x <;> cases hp : pick_numeric_amount x <;> simp [core_step1, h, hp]

lemma core_step1_sga (s : ISCore) (x : FinItem) :
    (core_step1 s x).sga =
      if sjIsIS x then
        match pick_numeric_amount x with
        | none => s.sga
        | some val =>
          if s.sga = none ∧ normalize_account_id x.account_id ∈ sga_ids then some val
          else s.sga
      else s.sga := by
  by_cases h : sjIsIS x <;> cases hp : pick_numeric_amount x <;> simp [core_step1, h, hp]

lemma core_step1_op (s : ISCore) (x : FinItem) :
    (core_step1 s x).op =
      if sjIsIS x then
        match pick_numeric_amount x with
        | none => s.op
        | some val =>
          if s.op = none ∧ normalize_account_id x.account_id ∈ op_ids then some val
          else s.op
      else s.op := by
  by_cases h : sjIsIS x <;> cases hp : pick_numeric_amount x <;> simp [core_step1, h, hp]

lemma core_step1_ni (s : ISCore) (x : FinItem) :
    (core_step1 s x).ni =
      if sjIsIS x then
        match pick_numeric_amount x with
        | none => s.ni
        | some val =>
          if s.ni = none ∧ normalize_account_id x.account_id ∈ ni_ids then some val
          else s.ni
      else s.ni := by
  by_cases h : sjIsIS x <;> cases hp : pick_numeric_amount x <;> simp [core_step1, h, hp]

lemma scan_step (cur : Option Int) (ids : List Str) (x : FinItem) (xs : List FinItem) :
    opOr
      (if sjIsIS x then
        match pick_numeric_amount x with
        | none => cur
        | some val =>
          if cur = none ∧ normalize_account_id x.account_id ∈ ids then some val else cur
      else cur)
      (scan_id ids xs) = opOr cur (scan_id ids (x :: xs)) := by
  by_cases hsj : sjIsIS x
  · cases hp : pick_numeric_amount x with
    | none => simp [scan_id, hsj, hp]
    | some val =>
      by_cases hm : normalize_account_id x.account_id ∈ ids
      · cases hc : cur with
        | none => simp [scan_id, hsj, hp, hm, opOr]
        | some w => simp [scan_id, hsj, hp, hm, hc, opOr]
      · simp [scan_id, hsj, hp, hm]
  · simp [scan_id, hsj]

lemma foldl_core_step1 : ∀ (l : List FinItem) (s : ISCore),
    l.foldl core_step1 s =
      ⟨opOr s.rev (scan_id revenue_ids l), opOr s.cogs (scan_id cogs_ids l),
       opOr s.sga (scan_id sga_ids l), opOr s.op (scan_id op_ids l),
       opOr s.ni (scan_id ni_ids l)⟩ := by
  intro l
  induction l with
  | nil => intro s; simp [scan_id, opOr_none]
  | cons x xs ih =>
    intro s
    rw [List.foldl_cons, ih (core_step1 s x)]
    simp only [ISCore.mk.injEq]
    refine ⟨?_, ?_, ?_, ?_, ?_⟩
    · rw [core_step1_rev]; exact scan_step s.rev revenue_ids x xs
    · rw [core_step1_cogs]; exact scan_step s.cogs cogs_ids x xs
    · rw [core_step1_sga]; exact scan_step s.sga sga_ids x xs
    · rw [core_step1_op]; exact scan_step s.op op_ids x xs
    · rw [core_step1_ni]; exact scan_step s.ni ni_ids x xs

lemma core_step2_keep (s : NamePassState) (x : FinItem) :
    (∀ v, s.core.rev = some v → (core_step2 s x).core.rev = some v) ∧
    (∀ v, s.core.cogs = some v → (core_step2 s x).core.cogs = some v) ∧
    (∀ v, s.core.sga = some v → (core_step2 s x).core.sga = some v) ∧
    (∀ v, s.core.op = some v → (core_step2 s x).core.op = some v) ∧
    (∀ v, s.core.ni = some v → (core_step2 s x).core.ni = some v) := by
  by_cases hsj : sjIsIS x
  · cases hp : pick_numeric_amount x with
    | none =>
      refine ⟨?_, ?_, ?_, ?_, ?_⟩ <;> intro v h <;> simpa [core_step2, hsj, hp] using h
    | some val =>
      refine ⟨?_, ?_, ?_, ?_, ?_⟩ <;> intro v h <;> simp [core_step2, hsj, hp, h]
  · refine ⟨?_, ?_, ?_, ?_, ?_⟩ <;> intro v h <;> simpa [core_step2, hsj] using h

lemma foldl_core_step2_keeps : ∀ (l : List FinItem) (s : NamePassState),
    (∀ v, s.core.rev = some v → (l.foldl core_step2 s).core.rev = some v) ∧
    (∀ v, s.core.cogs = some v → (l.foldl core_step2 s).core.cogs = some v) ∧
    (∀ v, s.core.sga = some v → (l.foldl core_step2 s).core.sga = some v) ∧
    (∀ v, s.core.op = some v → (l.foldl core_step2 s).core.op = some v) ∧
    (∀ v, s.core.ni = some v → (l.foldl core_step2 s).core.ni = some v) := by
  intro l
  induction l with
  | nil =>
    exact fun s =>
      ⟨fun v h => h, fun v h => h, fun v h => h, fun v h => h, fun v h => h⟩
  | cons x xs ih =>
    intro s
    have hstep := core_step2_keep s x
    have hih := ih (core_step2 s x)
    exact ⟨fun v h => hih.1 v (hstep.1 v h),
      fun v h => hih.2.1 v (hstep.2.1 v h),
      fun v h => hih.2.2.1 v (hstep.2.2.1 v h),
      fun v h => hih.2.2.2.1 v (hstep.2.2.2.1 v h),
      fun v h => hih.2.2.2.2 v (hstep.2.2.2.2 v h)⟩

lemma sga_fallback_rev (t : NamePassState) : (sga_fallback t).rev = t.core.rev := by
  unfold sga_fallback
  cases hsga : t.core.sga <;> cases hsel : t.selling <;> cases hadm : t.admin <;> simp

lemma sga_fallback_cogs (t : NamePassState) : (sga_fallback t).cogs = t.core.cogs := by
  unfold sga_fallback
  cases hsga : t.core.sga <;> cases hsel : t.selling <;> cases hadm : t.admin <;> simp

lemma sga_fallback_op (t : NamePassState) : (sga_fallback t).op = t.core.op := by
  unfold sga_fallback
  cases hsga : t.core.sga <;> cases hsel : t.selling <;> cases hadm : t.admin <;> simp

lemma sga_fallback_ni (t : NamePassState) : (sga_fallback t).ni = t.core.ni := by
  unfold sga_fallback
  cases hsga : t.core.sga <;> cases hsel : t.selling <;> cases hadm : t.admin <;> simp

lemma sga_fallback_sga_some (t : NamePassState) (v : Int) (h : t.core.sga = some v) :
    (sga_fallback t).sga = some v := by
  unfold sga_fallback
  cases hsel : t.selling <;> cases hadm : t.admin <;> simp [h]

lemma pick_is_core_fields (l : List FinItem) :
    (∀ v, scan_id revenue_ids l = some v → (pick_is_core_from_rows l).rev = some v) ∧
    (∀ v, scan_id cogs_ids l = some v → (pick_is_core_from_rows l).cogs = some v) ∧
    (∀ v, scan_id sga_ids l = some v → (pick_is_core_from_rows l).sga = some v) ∧
    (∀ v, scan_id op_ids l = some v → (pick_is_core_from_rows l).op = some v) ∧
    (∀ v, scan_id ni_ids l = some v → (pick_is_core_from_rows l).ni = some v) := by
  have h1 := foldl_core_step1 l ⟨none, none, none, none, none⟩
  simp only [opOr] at h1
  have hkeep := foldl_core_step2_keeps l
    ⟨l.foldl core_step1 ⟨none, none, none, none, none⟩, none, none⟩
  unfold pick_is_core_from_rows
  refine ⟨?_, ?_, ?_, ?_, ?_⟩ <;> intro v h
  · rw [sga_fallback_rev]
    exact hkeep.1 v (by rw [h1]; exact h)
  · rw [sga_fallback_cogs]
    exact hkeep.2.1 v (by rw [h1]; exact h)
  · exact sga_fallback_sga_some _ v (hkeep.2.2.1 v (by rw [h1]; exact h))
  · rw [sga_fallback_op]
    exact hkeep.2.2.2.1 v (by rw [h1]; exact h)
  · rw [sga_fallback_ni]
    exact hkeep.2.2.2.2 v (by rw [h1]; exact h)

/-- C2 counterexample: in `find_amount` (the equity / operating-cash-flow
matcher) a later row matching by normalized identifier (amount 2) does NOT
take precedence over an earlier row matching only by name keyword
(amount 1): the matcher returns 1, the earlier keyword row's amount. -/
theorem C2_counterexample :
    normalize_account_id (some (str "ifrs-full_Equity")) ∈
      equity_account_ids.map (fun x => normalize_account_id (some x)) ∧
    pick_numeric_amount
      ⟨some (str "BS"), some (str "ifrs-full_Equity"), some (str "x"), none, some (str "2")⟩ =
      some 2 ∧
    (normalize_account_id (some (str "acme")) ∉
      equity_account_ids.map (fun x => normalize_account_id (some x))) ∧
    kwHit (equity_keywords.map (List.filter (fun c => !(c = ' '))))
      ((some (str "자본총계")).getD [] |>.filter (fun c => !(c = ' '))) = true ∧
    find_amount
      [⟨some (str "BS"), some (str "acme"), some (str "자본총계"), none, some (str "1")⟩,
       ⟨some (str "BS"), some (str "ifrs-full_Equity"), some (str "x"), none, some (str "2")⟩]
      equity_keywords (str "BS") equity_account_ids = some 1 ∧
    (some (1 : Int) ≠ some (2 : Int)) := by
  decide

/-- C2 (amended): in the income-statement core matcher the identifier pass
always takes precedence — whenever some IS/CIS row matches a metric by
normalized identifier with a parseable amount, the result is the first such
row's amount, irrespective of any name-keyword rows; in `find_amount` the
identifier test precedes the keyword test only within a single row: rows are
scanned once in order, so an earlier row that matches only by keyword wins
over any later identifier match. -/
theorem C2_identifier_precedence_amended :
    (∀ (l : List FinItem) (v : Int),
      scan_id revenue_ids l = some v → (pick_is_core_from_rows l).rev = some v) ∧
    (∀ (l : List FinItem) (v : Int),
      scan_id cogs_ids l = some v → (pick_is_core_from_rows l).cogs = some v) ∧
    (∀ (l : List FinItem) (v : Int),
      scan_id sga_ids l = some v → (pick_is_core_from_rows l).sga = some v) ∧
    (∀ (l : List FinItem) (v : Int),
      scan_id op_ids l = some v → (pick_is_core_from_rows l).op = some v) ∧
    (∀ (l : List FinItem) (v : Int),
      scan_id ni_ids l = some v → (pick_is_core_from_rows l).ni = some v) ∧
    (∀ (item : FinItem) (rest : List FinItem) (target_ids kws : List Str)
        (sjd : Str) (v : Int),
      sjAllowed sjd (upperC (item.sj_div.getD [])) = true →
      kwHit kws ((item.account_nm.getD []).filter (fun c => !(c = ' '))) = true →
      pick_numeric_amount item = some v →
      find_amount_go target_ids kws sjd (item :: rest) = some v) := by
  refine ⟨fun l v => (pick_is_core_fields l).1 v,
    fun l v => (pick_is_core_fields l).2.1 v,
    fun l v => (pick_is_core_fields l).2.2.1 v,
    fun l v => (pick_is_core_fields l).2.2.2.1 v,
    fun l v => (pick_is_core_fields l).2.2.2.2 v, ?_⟩
  intro item rest target_ids kws sjd v hsj hkw hp
  simp [find_amount_go, hsj, hkw, hp]

/-- Witness for the amended C2: an IS row carrying the revenue identifier is
picked up by the identifier pass, and a head row matching only by keyword is
returned by `find_amount_go` at its own amount. -/
theorem C2_witness :
    (pick_is_core_from_rows
      [⟨some (str "IS"), some (str "ifrs_full_Revenue"), some (str "misc"), some (str "7"),
        none⟩]).rev = some 7 ∧
    find_amount_go []
      (equity_keywords.map (List.filter (fun c => !(c = ' ')))) (str "BS")
      [⟨some (str "BS"), some (str "acme"), some (str "자본총계"), none, some (str "1")⟩] =
      some 1 :=
  ⟨C2_identifier_precedence_amended.1
      [⟨some (str "IS"), some (str "ifrs_full_Revenue"), some (str "misc"), some (str "7"),
        none⟩] 7 (by decide),
    C2_identifier_precedence_amended.2.2.2.2.2
      ⟨some (str "BS"), some (str "acme"), some (str "자본총계"), none, some (str "1")⟩
      [] []
      (equity_keywords.map (List.filter (fun c => !(c = ' ')))) (str "BS") 1
      (by decide) (by decide) (by decide)⟩

lemma isDigitC_range {c : Char} (h : isDigitC c = true) : 48 ≤ c.toNat ∧ c.toNat ≤ 57 := by
  simpa [isDigitC] using h

lemma isDigitC_ne {c : Char} (x : Char) (h : isDigitC c = true)
    (hx : ¬(48 ≤ x.toNat ∧ x.toNat ≤ 57)) : c ≠ x := by
  intro he
  exact hx (he ▸ isDigitC_range h)

lemma isDigitC_not_space {c : Char} (h : isDigitC c = true) : isPySpace c = false := by
  cases hsp : isPySpace c
  · rfl
  · exfalso
    have hr := isDigitC_range h
    simp only [isPySpace, Bool.or_eq_true, decide_eq_true_eq] at hsp
    rcases hsp with ((((rfl | rfl) | rfl) | rfl) | rfl) | rfl <;> revert hr <;> decide

lemma dropWhile_eq_self_of_none {p : Char → Bool} :
    ∀ {l : Str}, (∀ c ∈ l, p c = false) → l.dropWhile p = l
  | [], _ => rfl
  | a :: t, h =>
    List.dropWhile_cons_of_neg (by simp [h a (List.mem_cons_self a t)])

lemma pyStrip_eq_self {l : Str} (h : ∀ c ∈ l, isPySpace c = false) : pyStrip l = l := by
  unfold pyStrip dropTrailingSpaces
  rw [dropWhile_eq_self_of_none (fun c hc => h c (List.mem_reverse.mp hc)),
    List.reverse_reverse]
  exact dropWhile_eq_self_of_none h

lemma dropTrailing_cons_of_not_space {c : Char} (hc : isPySpace c = false) (t : Str) :
    dropTrailingSpaces (c :: t) = c :: dropTrailingSpaces t := by
  unfold dropTrailingSpaces
  rw [List.reverse_cons, List.dropWhile_append]
  cases hemp : (t.reverse.dropWhile isPySpace).isEmpty
  · simp [hemp]
  · have h0 : t.reverse.dropWhile isPySpace = [] := by
      simpa [List.isEmpty_iff] using hemp
    simp [hemp, h0, List.dropWhile_cons_of_neg, hc]

lemma pyStrip_cons_of_not_space {c : Char} (hc : isPySpace c = false) (t : Str) :
    pyStrip (c :: t) = c :: dropTrailingSpaces t := by
  unfold pyStrip
  rw [dropTrailing_cons_of_not_space hc]
  exact List.dropWhile_cons_of_neg (by simp [hc])

lemma pyStrip_spaces_append {ws : Str} (hws : ∀ c ∈ ws, isPySpace c = true) (x : Str) :
    pyStrip (ws ++ x) = pyStrip x := by
  unfold pyStrip dropTrailingSpaces
  rw [List.reverse_append, List.dropWhile_append]
  have hwsrev : ws.reverse.dropWhile isPySpace = [] :=
    List.dropWhile_eq_nil_iff.mpr fun c hc => by simp [hws c (List.mem_reverse.mp hc)]
  have hwsnil : ws.dropWhile isPySpace = [] :=
    List.dropWhile_eq_nil_iff.mpr fun c hc => by simp [hws c hc]
  cases hemp : (x.reverse.dropWhile isPySpace).isEmpty
  · simp only [hemp, Bool.false_eq_true, if_false]
    rw [List.reverse_append, List.dropWhile_append]
    simp [hwsnil]
  · have h0 : x.reverse.dropWhile isPySpace = [] := by
      simpa [List.isEmpty_iff] using hemp
    simp [hemp, hwsrev, h0]

lemma digitVal_ofNat (d : Nat) (hd : d < 10) : digitVal (Char.ofNat (48 + d)) = d := by
  interval_cases d <;> decide

lemma isDigitC_ofNat (d : Nat) (hd : d < 10) : isDigitC (Char.ofNat (48 + d)) = true := by
  interval_cases d <;> decide

lemma natFromDigits_concat (l : Str) (c : Char) :
    natFromDigits (l ++ [c]) = 10 * natFromDigits l + digitVal c := by
  simp [natFromDigits, List.foldl_append]

lemma natFromDigits_of_digits (L : List Nat) (hL : ∀ d ∈ L, d < 10) :
    natFromDigits (L.reverse.map fun d => Char.ofNat (48 + d)) = Nat.ofDigits 10 L := by
  induction L with
  | nil => rfl
  | cons d L ih =>
    rw [List.reverse_cons, List.map_append, List.map_singleton, natFromDigits_concat,
      ih fun x hx => hL x (List.mem_cons_of_mem d hx),
      digitVal_ofNat d (hL d (List.mem_cons_self d L)), Nat.ofDigits_cons]
    ring

lemma digitChars_digits (m : Nat) : ∀ c ∈ digitChars m, isDigitC c = true := by
  intro c hc
  unfold digitChars at hc
  by_cases hm : m = 0
  · simp [hm] at hc
    subst hc
    decide
  · rw [if_neg hm] at hc
    obtain ⟨d, hd, rfl⟩ := List.mem_map.mp hc
    exact isDigitC_ofNat d (Nat.digits_lt_base (by norm_num) (List.mem_reverse.mp hd))

lemma digitChars_ne_nil (m : Nat) : digitChars m ≠ [] := by
  unfold digitChars
  by_cases hm : m = 0
  · simp [hm]
  · rw [if_neg hm]
    intro h
    rcases List.map_eq_nil_iff.mp h with h2
    rw [List.reverse_eq_nil_iff] at h2
    exact hm (Nat.digits_eq_nil_iff_eq_zero.mp h2)

lemma natFromDigits_digitChars (m : Nat) : natFromDigits (digitChars m) = m := by
  unfold digitChars
  by_cases hm : m = 0
  · subst hm; rfl
  · rw [if_neg hm,
      natFromDigits_of_digits _ (fun d hd => Nat.digits_lt_base (by norm_num) hd),
      Nat.ofDigits_digits]

lemma insertCommasRev_of_short (l : Str)
    (h : ∀ (a b c d : Char) (rest : Str), l = a :: b :: c :: d :: rest → False) :
    insertCommasRev l = l := by
  rcases l with _ | ⟨a, _ | ⟨b, _ | ⟨c, _ | ⟨d, t⟩⟩⟩⟩
  · rfl
  · rfl
  · rfl
  · rfl
  · exact absurd rfl (h a b c d t)

lemma mem_insertCommasRev : ∀ (l : Str), ∀ c ∈ insertCommasRev l, c ∈ l ∨ c = ',' := by
  intro l
  induction l using insertCommasRev.induct with
  | case1 a b c d rest ih =>
    intro x hx
    simp only [insertCommasRev, List.mem_cons] at hx ⊢
    rcases hx with rfl | rfl | rfl | rfl | hx
    · tauto
    · tauto
    · tauto
    · tauto
    · rcases ih x hx with h | h
      · simp only [List.mem_cons] at h
        tauto
      · tauto
  | case2 l h =>
    intro x hx
    rw [insertCommasRev_of_short l h] at hx
    exact Or.inl hx

lemma subset_insertCommasRev : ∀ (l : Str), ∀ c ∈ l, c ∈ insertCommasRev l := by
  intro l
  induction l using insertCommasRev.induct with
  | case1 a b c d rest ih =>
    intro x hx
    simp only [insertCommasRev, List.mem_cons] at hx ⊢
    rcases hx with rfl | rfl | rfl | hx
    · tauto
    · tauto
    · tauto
    · have := ih x (by simpa using hx)
      simp only [List.mem_cons] at this
      tauto
  | case2 l h =>
    intro x hx
    rw [insertCommasRev_of_short l h]
    exact hx

lemma insertCommasRev_head? (l : Str) : (insertCommasRev l).head? = l.head? := by
  rcases l with _ | ⟨a, _ | ⟨b, _ | ⟨c, _ | ⟨d, t⟩⟩⟩⟩ <;> rfl

lemma filter_insertCommasRev : ∀ (l : Str), (∀ c ∈ l, notComma c = true) →
    (insertCommasRev l).filter notComma = l := by
  intro l
  induction l using insertCommasRev.induct with
  | case1 a b c d rest ih =>
    intro h
    have hcomma : notComma ',' = false := by decide
    simp only [insertCommasRev, List.filter_cons]
    rw [if_pos (h a (by simp)), if_pos (h b (by simp)), if_pos (h c (by simp)), if_neg]
    · rw [ih fun x hx => h x (by simp only [List.mem_cons] at hx ⊢; tauto)]
    · simp [hcomma]
  | case2 l hsh =>
    intro h
    rw [insertCommasRev_of_short l hsh]
    exact List.filter_eq_self.mpr h

lemma takeWhile_digits {ds : Str} (h : ∀ c ∈ ds, isDigitC c = true) :
    ds.takeWhile isDigitC = ds :=
  List.takeWhile_eq_self_iff.mpr fun x hx => by simp [h x hx]

lemma dropWhile_digits {ds : Str} (h : ∀ c ∈ ds, isDigitC c = true) :
    ds.dropWhile isDigitC = [] :=
  List.dropWhile_eq_nil_iff.mpr fun x hx => by simp [h x hx]

lemma pyFloatInt_digits {ds : Str} (hne : ds ≠ [])
    (hdig : ∀ c ∈ ds, isDigitC c = true) :
    pyFloatInt ds = some ((natFromDigits ds : Nat) : Int) := by
  obtain ⟨c0, t0, rfl⟩ := List.exists_cons_of_ne_nil hne
  have h0 : isDigitC c0 = true := hdig c0 (List.mem_cons_self c0 t0)
  have hstrip : pyStrip (c0 :: t0) = c0 :: t0 :=
    pyStrip_eq_self fun c hc => isDigitC_not_space (hdig c hc)
  have hm : c0 ≠ '-' := isDigitC_ne _ h0 (by decide)
  have hp : c0 ≠ '+' := isDigitC_ne _ h0 (by decide)
  have hdot : ((([] : Str).head? = some '.') = False) := by simp
  have hsign : ¬(some c0 = some '-' ∨ some c0 = some '+') := by simp [hm, hp]
  simp only [pyFloatInt, hstrip, List.head?_cons]
  rw [if_neg hsign]
  simp only [takeWhile_digits hdig, dropWhile_digits hdig, hdot, if_false]
  simp [hm, applySign, truncScaled]

lemma pyFloatInt_neg_digits {ds : Str} (hne : ds ≠ [])
    (hdig : ∀ c ∈ ds, isDigitC c = true) :
    pyFloatInt ('-' :: ds) = some (-((natFromDigits ds : Nat) : Int)) := by
  have hstrip : pyStrip ('-' :: ds) = '-' :: ds :=
    pyStrip_eq_self fun c hc => by
      rcases List.mem_cons.mp hc with rfl | hc
      · decide
      · exact isDigitC_not_space (hdig c hc)
  have hdot : ((([] : Str).head? = some '.') = False) := by simp
  simp only [pyFloatInt, hstrip, List.head?_cons]
  simp only [true_or, if_true, List.drop_one, List.tail_cons]
  simp only [takeWhile_digits hdig, dropWhile_digits hdig, hdot, if_false]
  simp [hne, applySign, truncScaled]

lemma pyFloatInt_strip_congr {a b : Str} (h : pyStrip a = pyStrip b) :
    pyFloatInt a = pyFloatInt b := by
  simp only [pyFloatInt, h]

lemma parse_dart_int_eval_strip (x y : Str) (hstrip : pyStrip x = y)
    (hne : ¬(y = [] ∨ y = str "-" ∨ y = str "--" ∨ y = str "N/A" ∨
      y = str "—" ∨ y = str "–"))
    (hhead : y.head? ≠ some '△')
    (hparen : ¬((y.filter notComma).head? = some '(' ∧
      (y.filter notComma).getLast? = some ')')) :
    parse_dart_int (some x) = pyFloatInt (y.filter notComma) := by
  simp only [parse_dart_int, Option.getD_some, hstrip]
  rw [if_neg hne, if_neg hhead]
  have hd1 : decide (y.head? = some '△') = false := decide_eq_false hhead
  have hd2 : decide ((y.filter notComma).head? = some '(' ∧
      (y.filter notComma).getLast? = some ')') = false := decide_eq_false hparen
  simp only [hd1, hd2, Bool.false_eq_true, if_false, Bool.or_false]
  rcases hv : pyFloatInt (y.filter notComma) with _ | v <;> simp [hv]

lemma parse_dart_int_eval_triangle (x y : Str) (hstrip : pyStrip x = '△' :: y)
    (hne : ¬('△' :: y = [] ∨ '△' :: y = str "-" ∨ '△' :: y = str "--" ∨
      '△' :: y = str "N/A" ∨ '△' :: y = str "—" ∨ '△' :: y = str "–"))
    (hparen : ¬((y.filter notComma).head? = some '(' ∧
      (y.filter notComma).getLast? = some ')')) :
    parse_dart_int (some x) = Option.map (fun v => -v) (pyFloatInt (y.filter notComma)) := by
  have h1 : (('△' :: y).head? = some '△') := rfl
  simp only [parse_dart_int, Option.getD_some, hstrip]
  rw [if_neg hne, if_pos h1, List.drop_one, List.tail_cons]
  have hd1 : decide (('△' :: y).head? = some '△') = true := decide_eq_true h1
  have hd2 : decide ((y.filter notComma).head? = some '(' ∧
      (y.filter notComma).getLast? = some ')') = false := decide_eq_false hparen
  simp only [hd1, hd2, Bool.false_eq_true, if_false, Bool.true_or]
  rcases hv : pyFloatInt (y.filter notComma) with _ | v <;> simp [hv]

lemma parse_format_round (n : Int) :
    parse_dart_int (some (formatThousands n)) = some n := by
  have hdig := digitChars_digits n.natAbs
  have hdsne := digitChars_ne_nil n.natAbs
  obtain ⟨c0, t0, h0⟩ := List.exists_cons_of_ne_nil hdsne
  have hc0dig : isDigitC c0 = true := hdig c0 (by rw [h0]; exact List.mem_cons_self c0 t0)
  have hcom_mem : ∀ c ∈ (insertCommasRev (digitChars n.natAbs).reverse).reverse,
      isDigitC c = true ∨ c = ',' := by
    intro c hc
    rw [List.mem_reverse] at hc
    rcases mem_insertCommasRev _ c hc with h | h
    · exact Or.inl (hdig c (List.mem_reverse.mp h))
    · exact Or.inr h
  have hc0com : c0 ∈ (insertCommasRev (digitChars n.natAbs).reverse).reverse :=
    List.mem_reverse.mpr (subset_insertCommasRev _ c0
      (List.mem_reverse.mpr (by rw [h0]; exact List.mem_cons_self c0 t0)))
  have hcom_ne : (insertCommasRev (digitChars n.natAbs).reverse).reverse ≠ [] := by
    intro hnil
    rw [hnil] at hc0com
    exact List.not_mem_nil c0 hc0com
  have hfilter : (insertCommasRev (digitChars n.natAbs).reverse).reverse.filter notComma =
      digitChars n.natAbs := by
    rw [List.filter_reverse, filter_insertCommasRev _ (fun c hc => by
        have hcd := hdig c (List.mem_reverse.mp hc)
        simpa [notComma] using isDigitC_ne ',' hcd (by decide)),
      List.reverse_reverse]
  set com := (insertCommasRev (digitChars n.natAbs).reverse).reverse with hcomdef
  rcases lt_or_ge n 0 with hn | hn
  · have hf : formatThousands n = '-' :: com := by
      unfold formatThousands
      rw [if_pos hn]
      rfl
    have hstrip : pyStrip ('-' :: com) = '-' :: com := pyStrip_eq_self (by
      intro c hc
      rcases List.mem_cons.mp hc with rfl | hc
      · decide
      · rcases hcom_mem c hc with h | rfl
        · exact isDigitC_not_space h
        · decide)
    have hcomne_dash : com ≠ ['-'] := by
      intro h
      have hmem : ('-' : Char) ∈ com := by rw [h]; exact List.mem_cons_self _ _
      rcases hcom_mem '-' hmem with hd | hd
      · exact absurd hd (by decide)
      · exact absurd hd (by decide)
    have hne : ¬('-' :: com = [] ∨ '-' :: com = str "-" ∨ '-' :: com = str "--" ∨
        '-' :: com = str "N/A" ∨ '-' :: com = str "—" ∨ '-' :: com = str "–") := by
      simp only [not_or]
      refine ⟨by simp, ?_, ?_, ?_, ?_, ?_⟩
      · intro h
        rw [show str "-" = ['-'] from rfl] at h
        injection h with h1 h2
        exact hcom_ne h2
      · intro h
        rw [show str "--" = ['-', '-'] from rfl] at h
        injection h with h1 h2
        exact hcomne_dash h2
      · intro h
        rw [show str "N/A" = ['N', '/', 'A'] from rfl] at h
        injection h with h1 h2
        exact absurd h1 (by decide)
      · intro h
        rw [show str "—" = ['—'] from rfl] at h
        injection h with h1 h2
        exact absurd h1 (by decide)
      · intro h
        rw [show str "–" = ['–'] from rfl] at h
        injection h with h1 h2
        exact absurd h1 (by decide)
    have hhead : ('-' :: com).head? ≠ some '△' := by
      rw [List.head?_cons]
      intro he
      exact absurd (Option.some.inj he) (by decide)
    have hfil : ('-' :: com).filter notComma = '-' :: digitChars n.natAbs := by
      rw [List.filter_cons_of_pos (by decide), hfilter]
    have hparen : ¬((('-' :: com).filter notComma).head? = some '(' ∧
        (('-' :: com).filter notComma).getLast? = some ')') := by
      rw [hfil, List.head?_cons]
      rintro ⟨hh, -⟩
      exact absurd (Option.some.inj hh) (by decide)
    rw [hf, parse_dart_int_eval_strip _ _ hstrip hne hhead hparen, hfil,
      pyFloatInt_neg_digits hdsne hdig, natFromDigits_digitChars]
    congr 1
    omega
  · have hf : formatThousands n = com := by
      unfold formatThousands
      rw [if_neg (not_lt.mpr hn), List.nil_append]
    have hstrip : pyStrip com = com := pyStrip_eq_self (by
      intro c hc
      rcases hcom_mem c hc with h | rfl
      · exact isDigitC_not_space h
      · decide)
    have hne_ph : ∀ (p : Str), (∀ c ∈ p, isDigitC c = false) → com ≠ p := by
      intro p hp hfp
      rw [hfp] at hc0com
      have hc := hp c0 hc0com
      rw [hc0dig] at hc
      exact Bool.noConfusion hc
    have hne : ¬(com = [] ∨ com = str "-" ∨ com = str "--" ∨ com = str "N/A" ∨
        com = str "—" ∨ com = str "–") := by
      simp only [not_or]
      exact ⟨hcom_ne, hne_ph _ (by decide), hne_ph _ (by decide), hne_ph _ (by decide),
        hne_ph _ (by decide), hne_ph _ (by decide)⟩
    have hhead : com.head? ≠ some '△' := by
      obtain ⟨c1, t1, h1⟩ := List.exists_cons_of_ne_nil hcom_ne
      rw [h1, List.head?_cons]
      intro he
      have hc1 : c1 ∈ com := by rw [h1]; exact List.mem_cons_self c1 t1
      rcases hcom_mem c1 hc1 with hd | rfl
      · exact (isDigitC_ne '△' hd (by decide)) (Option.some.inj he)
      · exact absurd (Option.some.inj he) (by decide)
    have hparen : ¬((com.filter notComma).head? = some '(' ∧
        (com.filter notComma).getLast? = some ')') := by
      rw [hfilter, h0, List.head?_cons]
      rintro ⟨hh, -⟩
      exact (isDigitC_ne '(' hc0dig (by decide)) (Option.some.inj hh)
    rw [hf, parse_dart_int_eval_strip _ _ hstrip hne hhead hparen, hfilter,
      pyFloatInt_digits hdsne hdig, natFromDigits_digitChars]
    congr 1
    omega

/-- C5: the Amount Parser is total (every input yields an integer or null);
it round-trips every thousands-separator-formatted integer; and the fixed
examples hold: parse("") = null, parse("(1,234)") = -1234,
parse("△500") = -500; unparseable text yields null. -/
theorem C5_amount_parsing :
    (∀ n : Int, parse_dart_int (some (formatThousands n)) = some n) ∧
    parse_dart_int (some (str "")) = none ∧
    parse_dart_int (some (str "(1,234)")) = some (-1234) ∧
    parse_dart_int (some (str "△500")) = some (-500) ∧
    (∀ s : Str, parse_dart_int (some s) = none ∨
      ∃ k : Int, parse_dart_int (some s) = some k) ∧
    parse_dart_int (some (str "abc")) = none := by
  refine ⟨parse_format_round, by decide, by decide, by decide, ?_, by decide⟩
  intro s
  rcases h : parse_dart_int (some s) with _ | k
  · exact Or.inl rfl
  · exact Or.inr ⟨k, rfl⟩

/-- C10 counterexample: "(5)" parses to -5, yet "△(5)" also parses to -5 and
not to -(-5) = 5 — the '△' flag and the parenthesis flag combine by
disjunction instead of negating the parsed value of the remainder. -/
theorem C10_counterexample :
    parse_dart_int (some (str "(5)")) = some (-5) ∧
    parse_dart_int (some (str "△(5)")) = some (-5) ∧
    ((-5 : Int) ≠ -(-5 : Int)) := by decide

/-- C10 (amended): a leading '△' negates the value of the remaining text
parsed as a signed float literal — in particular it composes with a leading
minus, parse("△-5") = +5 — provided the stripped remainder is not itself
'△'-prefixed and its comma-stripped form is not parenthesis-wrapped; on those
decorated remainders the negative flags combine by disjunction rather than
by negation. -/
theorem C10_triangle_negation_amended :
    (∀ (t : Str) (n : Int), parse_dart_int (some t) = some n →
      (pyStrip t).head? ≠ some '△' →
      ¬(((pyStrip t).filter notComma).head? = some '(' ∧
        ((pyStrip t).filter notComma).getLast? = some ')') →
      parse_dart_int (some ('△' :: t)) = some (-n)) ∧
    parse_dart_int (some (str "△-5")) = some 5 := by
  refine ⟨?_, by decide⟩
  intro t n hp hnd hnp
  have hplace : ¬(pyStrip t = [] ∨ pyStrip t = str "-" ∨ pyStrip t = str "--" ∨
      pyStrip t = str "N/A" ∨ pyStrip t = str "—" ∨ pyStrip t = str "–") := by
    intro hcon
    have hnone : parse_dart_int (some t) = none := by
      simp only [parse_dart_int, Option.getD_some]
      rw [if_pos hcon]
    rw [hnone] at hp
    exact Option.noConfusion hp
  have heval := parse_dart_int_eval_strip t (pyStrip t) rfl hplace hnd hnp
  rw [heval] at hp
  have htri : pyStrip ('△' :: t) = '△' :: dropTrailingSpaces t :=
    pyStrip_cons_of_not_space (by decide) t
  have hsplit : (dropTrailingSpaces t).takeWhile isPySpace ++ pyStrip t =
      dropTrailingSpaces t := List.takeWhile_append_dropWhile isPySpace (dropTrailingSpaces t)
  have hws : ∀ c ∈ (dropTrailingSpaces t).takeWhile isPySpace, isPySpace c = true :=
    fun c hc => List.mem_takeWhile_imp hc
  have hfilterw : (dropTrailingSpaces t).filter notComma =
      (dropTrailingSpaces t).takeWhile isPySpace ++ (pyStrip t).filter notComma := by
    conv_lhs => rw [← hsplit]
    rw [List.filter_append]
    congr 1
    refine List.filter_eq_self.mpr fun c hc => ?_
    have hsp := hws c hc
    simp only [isPySpace, Bool.or_eq_true, decide_eq_true_eq] at hsp
    rcases hsp with ((((rfl | rfl) | rfl) | rfl) | rfl) | rfl <;> decide
  have hparen2 : ¬(((dropTrailingSpaces t).filter notComma).head? = some '(' ∧
      ((dropTrailingSpaces t).filter notComma).getLast? = some ')') := by
    rcases hcase : (dropTrailingSpaces t).takeWhile isPySpace with _ | ⟨sp, ws2⟩
    · rw [hfilterw, hcase, List.nil_append]
      exact hnp
    · rw [hfilterw, hcase]
      rintro ⟨hh, -⟩
      rw [List.cons_append, List.head?_cons] at hh
      have hsp : isPySpace sp = true := hws sp (by rw [hcase]; exact List.mem_cons_self _ _)
      rw [Option.some.inj hh] at hsp
      exact absurd hsp (by decide)
  have hne2 : ¬('△' :: dropTrailingSpaces t = [] ∨
      '△' :: dropTrailingSpaces t = str "-" ∨
      '△' :: dropTrailingSpaces t = str "--" ∨
      '△' :: dropTrailingSpaces t = str "N/A" ∨
      '△' :: dropTrailingSpaces t = str "—" ∨
      '△' :: dropTrailingSpaces t = str "–") := by
    rintro (h | h | h | h | h | h)
    · exact List.cons_ne_nil _ _ h
    · rw [show str "-" = ['-'] from rfl] at h
      injection h with h1 h2
      exact absurd h1 (by decide)
    · rw [show str "--" = ['-', '-'] from rfl] at h
      injection h with h1 h2
      exact absurd h1 (by decide)
    · rw [show str "N/A" = ['N', '/', 'A'] from rfl] at h
      injection h with h1 h2
      exact absurd h1 (by decide)
    · rw [show str "—" = ['—'] from rfl] at h
      injection h with h1 h2
      exact absurd h1 (by decide)
    · rw [show str "–" = ['–'] from rfl] at h
      injection h with h1 h2
      exact absurd h1 (by decide)
  have heval2 := parse_dart_int_eval_triangle ('△' :: t) (dropTrailingSpaces t)
    htri hne2 hparen2
  rw [heval2]
  have hcong : pyFloatInt ((dropTrailingSpaces t).filter notComma) =
      pyFloatInt ((pyStrip t).filter notComma) := by
    rw [hfilterw]
    exact pyFloatInt_strip_congr (pyStrip_spaces_append hws _)
  rw [hcong, hp]
  rfl

/-- Witness for the amended C10: the remainder "-5" parses to -5 and the
'△'-prefixed string parses to its negation +5. -/
theorem C10_witness :
    parse_dart_int (some ('△' :: str "-5")) = some (-(-5 : Int)) :=
  C10_triangle_negation_amended.1 (str "-5") (-5) (by decide) (by decide) (by decide)

end StockAnalyze
